import Mathlib

/-!
Shallow embedding of the CherryIN OAuth subsystem of the repository:
  - src/main/services/CherryINOAuthService.ts (token store, refresh-on-401
    authenticated fetch, balance/usage/userinfo wrappers, logout),
  - src/renderer/src/utils/oauth.ts (PKCE helpers, pending-flow map,
    protocol-callback handler of oauthWithCherryIn),
  - src/renderer/src/hooks/useMinapps.ts (region visibility and the
    preference-preserving write path).

Platform primitives (Electron safeStorage, the filesystem, net.fetch,
crypto.subtle and crypto.getRandomValues) are modelled abstractly: encrypted
bytes are an opaque inductive type, network responses are explicit inputs,
and randomness and the SHA-256 digest are function parameters.  Everything
else is translated statement-for-statement from the TypeScript source.
-/

/-! ## safeStorage model

`safeStorage.encryptString` produces opaque encrypted bytes; `decryptString`
either recovers the plaintext or throws (modelled as `none`, matching the
catch-and-return-null in `getToken` / `getRefreshToken`).  The `corrupt`
constructor stands for on-disk bytes that fail to decrypt. -/

inductive CipherText where
  | enc (plain : String)
  | corrupt
deriving DecidableEq, Repr

def encryptString (s : String) : CipherText := .enc s

def decryptString : CipherText → Option String
  | .enc s => some s
  | .corrupt => none

/-! ## Token files (CherryINOAuthService state)

The service's observable state is the contents of the two token files
(`.cherryin_oauth_token` and `.cherryin_oauth_refresh_token`); `none` means
the file does not exist. -/

structure ServiceState where
  tokenFile : Option CipherText
  refreshTokenFile : Option CipherText
deriving DecidableEq, Repr

/-- `saveToken` from CherryINOAuthService.ts (lines 92-118): always writes the
encrypted access token; writes the encrypted refresh token only when the
`refreshToken` argument is truthy (JS `if (refreshToken)`: `undefined` and the
empty string are both skipped). -/
def saveToken (st : ServiceState) (accessToken : String) (refreshToken : Option String) :
    ServiceState :=
  let st1 : ServiceState := { st with tokenFile := some (encryptString accessToken) }
  match refreshToken with
  | some r => if r ≠ "" then { st1 with refreshTokenFile := some (encryptString r) } else st1
  | none => st1

/-- `getToken`: returns `null` when the file is absent, and (via the catch
block) when decryption throws. -/
def getToken (st : ServiceState) : Option String :=
  st.tokenFile.bind decryptString

/-- `getRefreshToken`: same shape as `getToken` on the refresh-token file. -/
def getRefreshToken (st : ServiceState) : Option String :=
  st.refreshTokenFile.bind decryptString

/-- `hasToken`: `fs.existsSync(tokenFilePath)` - the file merely has to exist. -/
def hasToken (st : ServiceState) : Bool :=
  st.tokenFile.isSome

/-! ## Network model -/

/-- Result of an awaited `net.fetch` / `fetch`: the promise either rejects
(`thrown`) or yields a response. -/
inductive NetResult (α : Type) where
  | thrown
  | ok (val : α)
deriving DecidableEq, Repr

/-- Parsed JSON body of a response, one constructor per shape the service
reads: the token-endpoint body, and the three zod-validated API bodies.
`malformed` covers bodies the relevant zod schema rejects (or that are not
JSON at all).  JS numbers are modelled as exact rationals. -/
inductive JsonBody where
  | malformed
  | token (accessToken : Option String) (refreshToken : Option String)
  | balance (success : Bool) (quota : ℚ) (usedQuota : ℚ)
  | usage (success : Bool) (requestCount : ℚ) (usedQuota : ℚ) (quota : ℚ)
  | userInfo (success : Bool) (userId : ℚ) (username : String)
      (displayName : Option String) (email : String) (userGroup : Option String)
deriving DecidableEq, Repr

/-- `tokenData.access_token` on an arbitrary body (undefined unless the body
is token-shaped). -/
def JsonBody.tokenAccessToken : JsonBody → Option String
  | .token a _ => a
  | _ => none

/-- `tokenData.refresh_token` on an arbitrary body. -/
def JsonBody.tokenRefreshToken : JsonBody → Option String
  | .token _ r => r
  | _ => none

structure HttpResponse where
  status : Nat
  body : JsonBody
deriving DecidableEq, Repr

/-- `Response.ok` per the fetch specification: status in the range 200-299. -/
def HttpResponse.ok (r : HttpResponse) : Bool :=
  decide (200 ≤ r.status ∧ r.status < 300)

/-- One network request issued by the service, recorded for the trace:
either an API call carrying a bearer token, or the refresh-token POST. -/
inductive FetchEvent where
  | apiRequest (bearer : String)
  | refreshRequest (refreshToken : String)
deriving DecidableEq, Repr

def FetchEvent.isApi : FetchEvent → Bool
  | .apiRequest _ => true
  | .refreshRequest _ => false

def FetchEvent.isRefresh : FetchEvent → Bool
  | .apiRequest _ => false
  | .refreshRequest _ => true

/-- `refreshAccessToken` (CherryINOAuthService.ts lines 162-206).  Returns the
new access token (or `none` on any failure), the resulting token-file state,
and the trace of network requests it issued.  `if (!refreshToken)` is a JS
truthiness check: a missing OR empty-string refresh token returns `null`
before any request is sent.  Remaining failure cases, each returning `null`:
the fetch throwing, a non-ok response, and a body whose `access_token` is
missing (or falsy, i.e. empty).  On success it saves the new tokens via
`saveToken`. -/
def refreshAccessToken (st : ServiceState) (refreshNet : String → NetResult HttpResponse) :
    Option String × ServiceState × List FetchEvent :=
  match getRefreshToken st with
  | none => (none, st, [])
  | some rt =>
    if rt = "" then (none, st, [])
    else
      match refreshNet rt with
      | .thrown => (none, st, [.refreshRequest rt])
      | .ok resp =>
        if resp.ok then
          match resp.body.tokenAccessToken with
          | some newTok =>
            if newTok ≠ "" then
              (some newTok, saveToken st newTok resp.body.tokenRefreshToken, [.refreshRequest rt])
            else (none, st, [.refreshRequest rt])
          | none => (none, st, [.refreshRequest rt])
        else (none, st, [.refreshRequest rt])

/-- The error type every failure of the service surfaces as
(`CherryINOAuthServiceError`); only the message is observable. -/
structure CherryError where
  message : String
deriving DecidableEq, Repr

/-- `authenticatedFetch` (CherryINOAuthService.ts lines 211-244).  `apiNet t`
is the response of `makeRequest(t)` (endpoint and options are fixed for one
call, so the response depends only on the bearer token).  `if (!token)` is a
JS truthiness check: it throws - without issuing any request - when the
stored token is missing OR the empty string.  On a 401 first response it
refreshes once and, only when the refresh yields a token, re-sends once with
the new token; otherwise it returns the response it has. -/
def authenticatedFetch (st : ServiceState) (apiNet : String → HttpResponse)
    (refreshNet : String → NetResult HttpResponse) :
    Except CherryError (HttpResponse × ServiceState × List FetchEvent) :=
  match getToken st with
  | none => .error ⟨"No OAuth token found"⟩
  | some token =>
    if token = "" then .error ⟨"No OAuth token found"⟩
    else
      let r1 := apiNet token
      if r1.status = 401 then
        match refreshAccessToken st refreshNet with
        | (some newTok, st1, rtr) =>
          .ok (apiNet newTok, st1, .apiRequest token :: rtr ++ [.apiRequest newTok])
        | (none, st1, rtr) =>
          .ok (r1, st1, .apiRequest token :: rtr)
      else
        .ok (r1, st, [.apiRequest token])

structure BalanceResponse where
  balance : ℚ
deriving DecidableEq, Repr

structure UsageResponse where
  requestCount : ℚ
  usedPercent : ℚ
deriving DecidableEq, Repr

structure UserInfoResponse where
  userId : ℚ
  username : String
  displayName : Option String
  email : String
  userGroup : Option String
deriving DecidableEq, Repr

/-- `getBalance` (lines 249-281): every error escaping it is re-wrapped by the
catch block into a `CherryINOAuthServiceError` whose message is
"Invalid response format from server" for zod failures and
"Failed to get balance" for everything else (including the success:false
throw, which the catch re-wraps).  Also returns the network trace. -/
def getBalance (st : ServiceState) (apiNet : String → HttpResponse)
    (refreshNet : String → NetResult HttpResponse) :
    Except CherryError BalanceResponse × List FetchEvent :=
  match authenticatedFetch st apiNet refreshNet with
  | .error _ => (.error ⟨"Failed to get balance"⟩, [])
  | .ok (resp, _, tr) =>
    if resp.ok then
      match resp.body with
      | .balance success quota _ =>
        if success then (.ok ⟨quota / 500000⟩, tr)
        else (.error ⟨"Failed to get balance"⟩, tr)
      | _ => (.error ⟨"Invalid response format from server"⟩, tr)
    else (.error ⟨"Failed to get balance"⟩, tr)

/-- The usage-percentage computation of `getUsage` (lines 302-311):
`total = quota + used_quota`;
`usedPercent = total > 0 ? Math.round(used_quota / total * 10000) / 100 : 0`.
`Math.round x = ⌊x + 1/2⌋`, which is Mathlib's `round` on ℚ. -/
def computeUsedPercent (quota usedQuota : ℚ) : ℚ :=
  let total := quota + usedQuota
  if 0 < total then ((round (usedQuota / total * 10000) : ℤ) : ℚ) / 100 else 0

/-- `getUsage` (lines 286-320), same error-wrapping shape as `getBalance`. -/
def getUsage (st : ServiceState) (apiNet : String → HttpResponse)
    (refreshNet : String → NetResult HttpResponse) :
    Except CherryError UsageResponse × List FetchEvent :=
  match authenticatedFetch st apiNet refreshNet with
  | .error _ => (.error ⟨"Failed to get usage"⟩, [])
  | .ok (resp, _, tr) =>
    if resp.ok then
      match resp.body with
      | .usage success requestCount usedQuota quota =>
        if success then (.ok ⟨requestCount, computeUsedPercent quota usedQuota⟩, tr)
        else (.error ⟨"Failed to get usage"⟩, tr)
      | _ => (.error ⟨"Invalid response format from server"⟩, tr)
    else (.error ⟨"Failed to get usage"⟩, tr)

/-- `getUserInfo` (lines 325-355), same shape. -/
def getUserInfo (st : ServiceState) (apiNet : String → HttpResponse)
    (refreshNet : String → NetResult HttpResponse) :
    Except CherryError UserInfoResponse × List FetchEvent :=
  match authenticatedFetch st apiNet refreshNet with
  | .error _ => (.error ⟨"Failed to get user info"⟩, [])
  | .ok (resp, _, tr) =>
    if resp.ok then
      match resp.body with
      | .userInfo success userId username displayName email userGroup =>
        if success then (.ok ⟨userId, username, displayName, email, userGroup⟩, tr)
        else (.error ⟨"Failed to get user info"⟩, tr)
      | _ => (.error ⟨"Invalid response format from server"⟩, tr)
    else (.error ⟨"Failed to get user info"⟩, tr)

/-- `logout` (lines 360-397): reads the token; when it is truthy
(`if (token)` - a missing or empty-string token skips revocation) it POSTs
the RFC 7009 revoke request inside its own try/catch, whose outcome (the
`revokeNet` parameter) is discarded either way; then it unconditionally
deletes both token files.  Returns the new state together with the list of
tokens for which a revoke request was sent. -/
def logout (st : ServiceState) (revokeNet : String → NetResult Unit) :
    ServiceState × List String :=
  let revoked : List String :=
    match getToken st with
    | some token =>
      if token = "" then []
      else
        match revokeNet token with
        | .thrown => [token]
        | .ok _ => [token]
    | none => []
  (⟨none, none⟩, revoked)

/-! ## PKCE helpers (src/renderer/src/utils/oauth.ts) -/

/-- The charset of `generateRandomString` (oauth.ts line 213): the RFC 7636
unreserved characters. -/
def pkceCharset : List Char :=
  "ABCDEFGHIJKLMNOPQRSTUVWXYZabcdefghijklmnopqrstuvwxyz0123456789-._~".toList

/-- `generateRandomString` (lines 212-217).  `randomBytes i` is the i-th byte
produced by `crypto.getRandomValues`; the source indexes the charset with
`byte % charset.length`. -/
def generateRandomString (length : Nat) (randomBytes : Nat → Nat) : String :=
  ⟨(List.range length).map (fun i => pkceCharset.getD (randomBytes i % pkceCharset.length) 'A')⟩

/-- The `btoa` alphabet (RFC 4648 base64). -/
def base64Chars : List Char :=
  "ABCDEFGHIJKLMNOPQRSTUVWXYZabcdefghijklmnopqrstuvwxyz0123456789+/".toList

/-- The platform `btoa` on a latin1 string whose char codes are the byte
values (that string is built byte-by-byte in `base64UrlEncode`): standard
base64 with `=` padding, three bytes per four output characters. -/
def btoa : List Nat → List Char
  | [] => []
  | [b1] =>
    [base64Chars.getD (b1 / 4) 'A', base64Chars.getD (b1 % 4 * 16) 'A', '=', '=']
  | [b1, b2] =>
    [base64Chars.getD (b1 / 4) 'A', base64Chars.getD (b1 % 4 * 16 + b2 / 16) 'A',
     base64Chars.getD (b2 % 16 * 4) 'A', '=']
  | b1 :: b2 :: b3 :: rest =>
    base64Chars.getD (b1 / 4) 'A' :: base64Chars.getD (b1 % 4 * 16 + b2 / 16) 'A' ::
    base64Chars.getD (b2 % 16 * 4 + b3 / 64) 'A' :: base64Chars.getD (b3 % 64) 'A' ::
    btoa rest

/-- The two character replacements of `base64UrlEncode`:
`.replace(/\x2b/g, '-')` and `.replace(/\x2f/g, '_')` (plus and slash). -/
def urlSafeChar (c : Char) : Char :=
  if c = '+' then '-' else if c = '/' then '_' else c

/-- The final `.replace(/=+$/, '')` of `base64UrlEncode`: drop the trailing
run of `=` characters. -/
def stripTrailingEq : List Char → List Char
  | [] => []
  | c :: cs =>
    match stripTrailingEq cs with
    | [] => if c = '=' then [] else [c]
    | r => c :: r

/-- `base64UrlEncode` (oauth.ts lines 222-229): `btoa` of the byte string,
then `+` to `-`, `/` to `_`, and trailing `=` stripped. -/
def base64UrlEncode (bytes : List Nat) : String :=
  ⟨stripTrailingEq ((btoa bytes).map urlSafeChar)⟩

/-- `generateCodeChallenge` (lines 234-239).  `sha256 v` abstracts the
platform composition `crypto.subtle.digest('SHA-256', TextEncoder.encode(v))`
as a digest-function parameter; the repository code around it is embedded
exactly. -/
def generateCodeChallenge (sha256 : String → List Nat) (codeVerifier : String) : String :=
  base64UrlEncode (sha256 codeVerifier)

/-- Modelled from the spec: RFC 4648 section 5 base64url encoding without
padding, used only as the comparison point for the refinement theorem about
`base64UrlEncode` ("the base64url encoding, without padding and with plus and
slash replaced by minus and underscore, of the SHA-256 digest"). -/
def base64UrlChars : List Char :=
  "ABCDEFGHIJKLMNOPQRSTUVWXYZabcdefghijklmnopqrstuvwxyz0123456789-_".toList

/-- Modelled from the spec: the padding-free base64url encoding itself. -/
def base64UrlSpec : List Nat → List Char
  | [] => []
  | [b1] =>
    [base64UrlChars.getD (b1 / 4) 'A', base64UrlChars.getD (b1 % 4 * 16) 'A']
  | [b1, b2] =>
    [base64UrlChars.getD (b1 / 4) 'A', base64UrlChars.getD (b1 % 4 * 16 + b2 / 16) 'A',
     base64UrlChars.getD (b2 % 16 * 4) 'A']
  | b1 :: b2 :: b3 :: rest =>
    base64UrlChars.getD (b1 / 4) 'A' :: base64UrlChars.getD (b1 % 4 * 16 + b2 / 16) 'A' ::
    base64UrlChars.getD (b2 % 16 * 4 + b3 / 64) 'A' :: base64UrlChars.getD (b3 % 64) 'A' ::
    base64UrlSpec rest

/-! ## Pending OAuth flows (oauth.ts lines 244-258, 265-481) -/

/-- The value stored in `pendingOAuthFlows`: the code verifier, the resolved
config (flattened), and the creation timestamp. -/
structure FlowData where
  codeVerifier : String
  oauthServer : String
  clientId : String
  apiHost : String
  redirectUri : String
  scopes : String
  timestamp : Nat
deriving DecidableEq, Repr

/-- The `pendingOAuthFlows` JS `Map`, as an association list keyed by the
`state` parameter. -/
abbrev FlowMap := List (String × FlowData)

def mapHas (m : FlowMap) (k : String) : Bool :=
  m.any (fun e => e.1 = k)

def mapGet (m : FlowMap) (k : String) : Option FlowData :=
  (m.find? (fun e => e.1 = k)).map (fun e => e.2)

def mapDelete (m : FlowMap) (k : String) : FlowMap :=
  m.filter (fun e => e.1 ≠ k)

/-- `Map.set`; JS keeps an existing key in place, but the claims only look at
membership, so replace-and-append is an equivalent model. -/
def mapSet (m : FlowMap) (k : String) (v : FlowData) : FlowMap :=
  mapDelete m k ++ [(k, v)]

/-- `cleanupExpiredFlows` (lines 251-258): delete every entry with
`now - flow.timestamp > 10 * 60 * 1000`. -/
def cleanupExpiredFlows (now : Nat) (m : FlowMap) : FlowMap :=
  m.filter (fun e => ¬ (now - e.2.timestamp > 10 * 60 * 1000))

structure NewApiOAuthConfig where
  oauthServer : String
  clientId : Option String
  apiHost : Option String
  redirectUri : Option String
  scopes : Option String
deriving DecidableEq, Repr

def DEFAULT_REDIRECT_URI : String := "cherrystudio://oauth/callback"

def DEFAULT_CHERRYIN_SCOPES : String :=
  "openid profile email offline_access balance:read usage:read tokens:read tokens:write"

/-- Constant name kept exactly as in the source (including its typo). -/
def DEFUALT_CHERRYIN_CLIENT_ID : String := "2a348c87-bae1-4756-a62f-b2e97200fd6d"

/-- Everything `oauthWithCherryIn` computes before opening the popup. -/
structure OAuthStartResult where
  codeVerifier : String
  codeChallenge : String
  state : String
  authParams : List (String × String)
  flows : FlowMap
deriving DecidableEq, Repr

/-- The synchronous start of `oauthWithCherryIn` (oauth.ts lines 265-308):
clean up expired flows, resolve the config defaults (JS `??`), generate the
PKCE verifier (64 chars), challenge and state (32 chars), register the
pending flow keyed by state with the current timestamp, and build the
authorization-URL query parameters in source order.  `randV`/`randS` are the
random bytes drawn for the verifier and the state. -/
def oauthWithCherryInStart (sha256 : String → List Nat) (randV randS : Nat → Nat)
    (now : Nat) (config : NewApiOAuthConfig) (pending : FlowMap) : OAuthStartResult :=
  let cleaned := cleanupExpiredFlows now pending
  let oauthServer := config.oauthServer
  let clientId := config.clientId.getD DEFUALT_CHERRYIN_CLIENT_ID
  let apiHost := config.apiHost.getD oauthServer
  let scopes := config.scopes.getD DEFAULT_CHERRYIN_SCOPES
  let redirectUri := config.redirectUri.getD DEFAULT_REDIRECT_URI
  let codeVerifier := generateRandomString 64 randV
  let codeChallenge := generateCodeChallenge sha256 codeVerifier
  let state := generateRandomString 32 randS
  let flowData : FlowData := ⟨codeVerifier, oauthServer, clientId, apiHost, redirectUri, scopes, now⟩
  let newPending := mapSet cleaned state flowData
  let authParams := [("client_id", clientId), ("redirect_uri", redirectUri),
    ("response_type", "code"), ("scope", scopes), ("state", state),
    ("code_challenge", codeChallenge), ("code_challenge_method", "S256")]
  ⟨codeVerifier, codeChallenge, state, authParams, newPending⟩

/-! ## The protocol-callback handler of oauthWithCherryIn (lines 313-479) -/

/-- The parsed callback URL: `new URL(data.url)` plus its query parameters
(`URLSearchParams.get` returns `null` for a missing parameter). -/
structure CallbackUrl where
  hostname : String
  pathname : String
  code : Option String
  state : Option String
  error : Option String
  errorDescription : Option String
deriving DecidableEq, Repr

/-- JS truthiness of a `string | null` query parameter: `null` and the empty
string are falsy. -/
def truthy : Option String → Bool
  | none => false
  | some s => s ≠ ""

/-- One element of the API-keys response array, following the checks of
`extractKey` in source order. -/
inductive ApiKeyItem where
  | str (s : String)
  | objWithKey (k : String)
  | objWithToken (t : String)
  | other
deriving DecidableEq, Repr

/-- `extractKey` (lines 429-434). -/
def extractKey : ApiKeyItem → Option String
  | .str s => some s
  | .objWithKey k => some k
  | .objWithToken t => some t
  | .other => none

/-- Shape of `apiKeysData` (lines 436-444): a bare array, an object with a
`data` array, or anything else (which throws). -/
inductive ApiKeysBody where
  | arr (items : List ApiKeyItem)
  | dataArr (items : List ApiKeyItem)
  | malformed
deriving DecidableEq, Repr

/-- `.map(extractKey).filter(Boolean).join(',')`: `filter(Boolean)` drops both
`null` and the empty string. -/
def joinApiKeys (items : List ApiKeyItem) : String :=
  String.intercalate "," (((items.filterMap extractKey).filter (fun s => s ≠ "")))

structure ExchangeResponse where
  status : Nat
  accessToken : Option String
  refreshToken : Option String
deriving DecidableEq, Repr

structure KeysResponse where
  status : Nat
  body : ApiKeysBody
deriving DecidableEq, Repr

/-- The network environment one callback invocation runs against: the
token-exchange POST and the API-keys GET (each may throw).  The
`saveToken` IPC call also happens in between, but its own try/catch swallows
any failure, so it cannot influence the observable result. -/
structure CallbackEnv where
  tokenResp : NetResult ExchangeResponse
  apiKeysResp : NetResult KeysResponse
deriving DecidableEq, Repr

/-- What one run of the listener does to this invocation's promise: return
without touching it, reject it, or resolve it with the joined API keys. -/
inductive HandlerOutcome where
  | ignored
  | rejected
  | resolved (keys : String)
deriving DecidableEq, Repr

structure HandlerResult where
  flows : FlowMap
  outcome : HandlerOutcome
  exchangedToken : Bool
deriving DecidableEq, Repr

/-- The `onReceiveData` listener body of `oauthWithCherryIn` (lines 313-460),
for the invocation whose closure variables are `myState` (the generated
`state`) and the shared `pendingOAuthFlows` map `flows`.  Every terminal path
calls `cleanup()`, which deletes `myState` from the map; `exchangedToken`
records whether the token-exchange request was sent. -/
def handleCallback (myState : String) (flows : FlowMap) (cb : CallbackUrl)
    (env : CallbackEnv) : HandlerResult :=
  if cb.hostname ≠ "oauth" ∨ cb.pathname ≠ "/callback" then
    ⟨flows, .ignored, false⟩
  else if truthy cb.error then
    ⟨mapDelete flows myState, .rejected, false⟩
  else if ¬ truthy cb.code then
    ⟨mapDelete flows myState, .rejected, false⟩
  else
    match cb.state with
    | none => ⟨flows, .ignored, false⟩
    | some returnedState =>
      if returnedState = "" then ⟨flows, .ignored, false⟩
      else if mapHas flows returnedState = false then ⟨flows, .ignored, false⟩
      else if returnedState ≠ myState then ⟨flows, .ignored, false⟩
      else
        match mapGet flows returnedState with
        | none => ⟨mapDelete flows myState, .rejected, false⟩
        | some _ =>
          let flows1 := mapDelete flows returnedState
          match env.tokenResp with
          | .thrown => ⟨mapDelete flows1 myState, .rejected, true⟩
          | .ok tresp =>
            if ¬ (200 ≤ tresp.status ∧ tresp.status < 300) then
              ⟨mapDelete flows1 myState, .rejected, true⟩
            else
              match tresp.accessToken with
              | none => ⟨mapDelete flows1 myState, .rejected, true⟩
              | some accessToken =>
                if accessToken = "" then ⟨mapDelete flows1 myState, .rejected, true⟩
                else
                  match env.apiKeysResp with
                  | .thrown => ⟨mapDelete flows1 myState, .rejected, true⟩
                  | .ok kresp =>
                    if ¬ (200 ≤ kresp.status ∧ kresp.status < 300) then
                      ⟨mapDelete flows1 myState, .rejected, true⟩
                    else
                      match kresp.body with
                      | .malformed => ⟨mapDelete flows1 myState, .rejected, true⟩
                      | .arr items =>
                        let apiKeys := joinApiKeys items
                        if apiKeys ≠ "" then ⟨mapDelete flows1 myState, .resolved apiKeys, true⟩
                        else ⟨mapDelete flows1 myState, .rejected, true⟩
                      | .dataArr items =>
                        let apiKeys := joinApiKeys items
                        if apiKeys ≠ "" then ⟨mapDelete flows1 myState, .resolved apiKeys, true⟩
                        else ⟨mapDelete flows1 myState, .rejected, true⟩

/-- The `cleanup()` closure (lines 462-469) as it acts on the map (it also
removes the listener and clears the timeout); the 10-minute timeout handler
calls it before rejecting. -/
def cleanupFlow (flows : FlowMap) (state : String) : FlowMap :=
  mapDelete flows state

/-! ## Mini-app region filtering (src/renderer/src/hooks/useMinapps.ts) -/

inductive SupportedRegion where
  | CN
  | Global
deriving DecidableEq, Repr

/-- The fields of `MinAppType` the hook reads; `supportedRegions` is an
optional field (`none` models an absent field). -/
structure MinAppType where
  id : String
  supportedRegions : Option (List SupportedRegion)
deriving DecidableEq, Repr

/-- `isVisibleForRegion` (useMinapps.ts lines 28-38): CN users see everything;
for Global the app must have a non-empty `supportedRegions` containing
`Global` (`!app.supportedRegions || app.supportedRegions.length === 0` is the
absent-or-empty check). -/
def isVisibleForRegion (app : MinAppType) (region : SupportedRegion) : Bool :=
  if region = .CN then true
  else
    match app.supportedRegions with
    | none => false
    | some regions => if regions.length = 0 then false else regions.contains .Global

/-- `filterByRegion` (lines 41-43). -/
def filterByRegion (apps : List MinAppType) (region : SupportedRegion) : List MinAppType :=
  apps.filter (fun app => isVisibleForRegion app region)

/-- `getRegionHiddenApps` (lines 46-48); `allApps` is the `allMinApps`
template list imported from the config module (not part of src/). -/
def getRegionHiddenApps (allApps : List MinAppType) (region : SupportedRegion) :
    List MinAppType :=
  allApps.filter (fun app => ¬ isVisibleForRegion app region)

def appIds (apps : List MinAppType) : List String :=
  apps.map (fun app => app.id)

/-- `getHiddenApps` (lines 134-138): the id set of the template apps hidden
for the region, modelled as a list queried by membership. -/
def getHiddenApps (allApps : List MinAppType) (region : SupportedRegion) : List String :=
  appIds (getRegionHiddenApps allApps region)

/-- `updateMinapps` (lines 140-158) as the pure function from the Redux lists
(`enabled`, `disabled`), the template (`allApps`), the effective region and
the `visibleApps` argument to the list dispatched via `setMinApps`. -/
def updateMinapps (allApps enabled disabled : List MinAppType) (region : SupportedRegion)
    (visibleApps : List MinAppType) : List MinAppType :=
  let disabledIds := appIds disabled
  let withoutDisabled := visibleApps.filter (fun a => ¬ disabledIds.contains a.id)
  let hiddenIds := getHiddenApps allApps region
  let preservedHidden :=
    enabled.filter (fun a => hiddenIds.contains a.id ∧ ¬ disabledIds.contains a.id)
  let visibleIds := appIds withoutDisabled
  let toAppend := preservedHidden.filter (fun a => ¬ visibleIds.contains a.id)
  let merged := withoutDisabled ++ toAppend
  let existingIds := appIds merged
  let missingApps :=
    allApps.filter (fun a => ¬ existingIds.contains a.id ∧ ¬ disabledIds.contains a.id)
  merged ++ missingApps

/-- `updateDisabledMinapps` (lines 161-172): the list dispatched via
`setDisabledMinApps`. -/
def updateDisabledMinapps (allApps disabled : List MinAppType) (region : SupportedRegion)
    (visibleDisabledApps : List MinAppType) : List MinAppType :=
  let hiddenIds := getHiddenApps allApps region
  let preservedHidden := disabled.filter (fun a => hiddenIds.contains a.id)
  let visibleIds := appIds visibleDisabledApps
  let toAppend := preservedHidden.filter (fun a => ¬ visibleIds.contains a.id)
  visibleDisabledApps ++ toAppend

/-- `updatePinnedMinapps` (lines 175-186): the list dispatched via
`setPinnedMinApps`. -/
def updatePinnedMinapps (allApps pinned : List MinAppType) (region : SupportedRegion)
    (visiblePinnedApps : List MinAppType) : List MinAppType :=
  let hiddenIds := getHiddenApps allApps region
  let preservedHidden := pinned.filter (fun a => hiddenIds.contains a.id)
  let visibleIds := appIds visiblePinnedApps
  let toAppend := preservedHidden.filter (fun a => ¬ visibleIds.contains a.id)
  visiblePinnedApps ++ toAppend

/-! ## Concrete instances used by the witness theorems -/

def c1ApiNet : String → HttpResponse :=
  fun t => if t = "tokA" then ⟨401, .malformed⟩ else ⟨200, .malformed⟩

def c1RefreshNet : String → NetResult HttpResponse :=
  fun _ => .ok ⟨200, .token (some "tokB") (some "tokR2")⟩

def c2Sha : String → List Nat := fun _ => []

def c2Rand : Nat → Nat := fun _ => 1

def c2Cfg : NewApiOAuthConfig := ⟨"https://example.com", none, none, none, none⟩

def c10State : ServiceState := ⟨some (.enc "tokA"), none⟩

def c10ApiNet : String → HttpResponse := fun _ => ⟨200, .usage true 7 3 1⟩

def c10RefreshNet : String → NetResult HttpResponse := fun _ => .thrown

/-! # Theorems

Shared helper lemmas first, then one theorem per claim (with its witness or
counterexample). -/

/-! ## Helper lemmas about the flow map -/

theorem mapHas_mapDelete_self (m : FlowMap) (k : String) :
    mapHas (mapDelete m k) k = false := by
  rw [Bool.eq_false_iff]
  intro hcon
  rw [mapHas, List.any_eq_true] at hcon
  obtain ⟨x, hx, hxk⟩ := hcon
  have hne : x.1 ≠ k := of_decide_eq_true (List.mem_filter.mp hx).2
  exact hne (of_decide_eq_true hxk)

theorem find?_append_key (l : List (String × FlowData)) (k : String) (v : FlowData)
    (h : ∀ e ∈ l, e.1 ≠ k) :
    (l ++ [(k, v)]).find? (fun e => e.1 = k) = some (k, v) := by
  induction l with
  | nil => simp [List.find?]
  | cons e t ih =>
    have he : e.1 ≠ k := h e (List.mem_cons_self e t)
    simp only [List.cons_append, List.find?, decide_eq_false he]
    exact ih (fun x hx => h x (List.mem_cons_of_mem e hx))

theorem mapGet_mapSet_self (m : FlowMap) (k : String) (v : FlowData) :
    mapGet (mapSet m k v) k = some v := by
  unfold mapGet mapSet
  rw [find?_append_key]
  · rfl
  · intro e he
    exact of_decide_eq_true (List.mem_filter.mp he).2

theorem mem_mapDelete (m : FlowMap) (k : String) (e : String × FlowData)
    (h : e ∈ mapDelete m k) : e ∈ m :=
  (List.mem_filter.mp h).1

theorem mem_cleanupExpiredFlows (now : Nat) (m : FlowMap) (e : String × FlowData)
    (h : e ∈ cleanupExpiredFlows now m) : now - e.2.timestamp ≤ 10 * 60 * 1000 := by
  have := (List.mem_filter.mp h).2
  have hp : ¬ (now - e.2.timestamp > 10 * 60 * 1000) := of_decide_eq_true this
  omega

/-! ## Helper lemmas about base64 -/

theorem base64Chars_length : base64Chars.length = 64 := by decide

theorem base64UrlChars_length : base64UrlChars.length = 64 := by decide

theorem pkceCharset_length : pkceCharset.length = 66 := by decide

theorem urlSafeChar_getD (i : Nat) :
    urlSafeChar (base64Chars.getD i 'A') = base64UrlChars.getD i 'A' := by
  by_cases h : i < 64
  · exact (by decide :
      ∀ j, j < 64 → urlSafeChar (base64Chars.getD j 'A') = base64UrlChars.getD j 'A') i h
  · rw [List.getD_eq_default _ _ (by rw [base64Chars_length]; omega),
      List.getD_eq_default _ _ (by rw [base64UrlChars_length]; omega)]
    rfl

theorem base64UrlChars_getD_ne (i : Nat) : base64UrlChars.getD i 'A' ≠ '=' := by
  by_cases h : i < 64
  · exact (by decide : ∀ j, j < 64 → base64UrlChars.getD j 'A' ≠ '=') i h
  · rw [List.getD_eq_default _ _ (by rw [base64UrlChars_length]; omega)]
    decide

theorem base64UrlChars_getD_mem (i : Nat) : base64UrlChars.getD i 'A' ∈ base64UrlChars := by
  by_cases h : i < 64
  · exact (by decide : ∀ j, j < 64 → base64UrlChars.getD j 'A' ∈ base64UrlChars) i h
  · rw [List.getD_eq_default _ _ (by rw [base64UrlChars_length]; omega)]
    decide

theorem stripTrailingEq_cons_ne (c : Char) (cs : List Char) (h : ¬ c = '=') :
    stripTrailingEq (c :: cs) = c :: stripTrailingEq cs := by
  rw [stripTrailingEq]
  cases hcs : stripTrailingEq cs with
  | nil => simp [h]
  | cons x xs => rfl

theorem urlSafeChar_pad : urlSafeChar '=' = '=' := rfl

theorem strip_map_btoa (bytes : List Nat) :
    stripTrailingEq ((btoa bytes).map urlSafeChar) = base64UrlSpec bytes := by
  induction bytes using btoa.induct with
  | case1 => rfl
  | case2 b1 =>
    simp only [btoa, List.map_cons, List.map_nil, urlSafeChar_getD, urlSafeChar_pad]
    rw [stripTrailingEq_cons_ne _ _ (base64UrlChars_getD_ne _),
      stripTrailingEq_cons_ne _ _ (base64UrlChars_getD_ne _)]
    rfl
  | case3 b1 b2 =>
    simp only [btoa, List.map_cons, List.map_nil, urlSafeChar_getD, urlSafeChar_pad]
    rw [stripTrailingEq_cons_ne _ _ (base64UrlChars_getD_ne _),
      stripTrailingEq_cons_ne _ _ (base64UrlChars_getD_ne _),
      stripTrailingEq_cons_ne _ _ (base64UrlChars_getD_ne _)]
    rfl
  | case4 b1 b2 b3 rest ih =>
    simp only [btoa, List.map_cons, urlSafeChar_getD]
    rw [stripTrailingEq_cons_ne _ _ (base64UrlChars_getD_ne _),
      stripTrailingEq_cons_ne _ _ (base64UrlChars_getD_ne _),
      stripTrailingEq_cons_ne _ _ (base64UrlChars_getD_ne _),
      stripTrailingEq_cons_ne _ _ (base64UrlChars_getD_ne _), ih]
    rfl

theorem base64UrlSpec_subset (bytes : List Nat) :
    ∀ c ∈ base64UrlSpec bytes, c ∈ base64UrlChars := by
  induction bytes using base64UrlSpec.induct with
  | case1 => intro c hc; simp [base64UrlSpec] at hc
  | case2 b1 =>
    intro c hc
    simp only [base64UrlSpec, List.mem_cons, List.not_mem_nil, or_false] at hc
    rcases hc with h | h <;> (rw [h]; exact base64UrlChars_getD_mem _)
  | case3 b1 b2 =>
    intro c hc
    simp only [base64UrlSpec, List.mem_cons, List.not_mem_nil, or_false] at hc
    rcases hc with h | h | h <;> (rw [h]; exact base64UrlChars_getD_mem _)
  | case4 b1 b2 b3 rest ih =>
    intro c hc
    simp only [base64UrlSpec, List.mem_cons] at hc
    rcases hc with h | h | h | h | h
    · rw [h]; exact base64UrlChars_getD_mem _
    · rw [h]; exact base64UrlChars_getD_mem _
    · rw [h]; exact base64UrlChars_getD_mem _
    · rw [h]; exact base64UrlChars_getD_mem _
    · exact ih c h

theorem generateRandomString_length (n : Nat) (rand : Nat → Nat) :
    (generateRandomString n rand).length = n := by
  show (List.map _ (List.range n)).length = n
  rw [List.length_map, List.length_range]

theorem generateRandomString_subset (n : Nat) (rand : Nat → Nat) :
    ∀ c ∈ (generateRandomString n rand).data, c ∈ pkceCharset := by
  intro c hc
  have hc2 : c ∈ (List.range n).map
      (fun i => pkceCharset.getD (rand i % pkceCharset.length) 'A') := hc
  rw [List.mem_map] at hc2
  obtain ⟨i, _, hi⟩ := hc2
  rw [← hi]
  have hlen : pkceCharset.length = 66 := pkceCharset_length
  have hm : rand i % pkceCharset.length < 66 := by
    rw [hlen]; exact Nat.mod_lt _ (by omega)
  exact (by decide : ∀ j, j < 66 → pkceCharset.getD j 'A' ∈ pkceCharset) _ hm

/-! ## Helper lemmas about the authenticated fetch -/

theorem refreshAccessToken_trace (st : ServiceState)
    (refreshNet : String → NetResult HttpResponse) :
    (refreshAccessToken st refreshNet).2.2 = []
    ∨ ∃ rt, (refreshAccessToken st refreshNet).2.2 = [FetchEvent.refreshRequest rt] := by
  cases hg : getRefreshToken st with
  | none => exact Or.inl (by simp [refreshAccessToken, hg])
  | some rt =>
    by_cases hrt : rt = ""
    · exact Or.inl (by simp [refreshAccessToken, hg, hrt])
    · right
      refine ⟨rt, ?_⟩
      cases hn : refreshNet rt with
      | thrown => simp [refreshAccessToken, hg, hrt, hn]
      | ok resp =>
        by_cases hok : resp.ok
        · cases hta : resp.body.tokenAccessToken with
          | none => simp [refreshAccessToken, hg, hrt, hn, hok, hta]
          | some nt =>
            by_cases hnt : nt = "" <;> simp [refreshAccessToken, hg, hrt, hn, hok, hta, hnt]
        · simp [refreshAccessToken, hg, hrt, hn, hok]

set_option maxHeartbeats 2000000 in
/-- Every run of the listener that resolves or rejects the promise removes
this invocation's entry from the pending-flow map (each terminal path goes
through `cleanup()`). -/
theorem handleCallback_terminal_deletes :
    ∀ (myState : String) (flows : FlowMap) (cb : CallbackUrl) (env : CallbackEnv),
      (handleCallback myState flows cb env).outcome ≠ .ignored →
      mapHas (handleCallback myState flows cb env).flows myState = false := by
  intro myState flows cb env
  unfold handleCallback
  repeat' split
  all_goals intro h
  all_goals first
    | exact absurd rfl h
    | exact mapHas_mapDelete_self _ _
    | (dsimp only; split <;> exact mapHas_mapDelete_self _ _)

/-! ## Claims C1, C5, C6, C7 -/

/-- C1: for every `authenticatedFetch` call with a stored (truthy, i.e.
non-empty - `if (!token)` throws otherwise) access token,
(i) a non-401 first response is returned as-is after a single request;
(ii) on a 401 first response, if the single refresh attempt yields a new
access token the request is re-sent exactly once with the new token and that
second response is returned as-is (no condition on its status - so no second
retry ever happens); (iii) if the refresh fails the original 401 response is
surfaced.  `refreshAccessToken` returns `none` - without sending any refresh
request - when the stored refresh token is missing or empty, and after the
single refresh POST when that fetch throws, when the response is not ok, and
when its body carries no `access_token`.  Finally, every trace contains at
most two API requests and at most one refresh request. -/
theorem C1_authenticatedFetch_retry_once :
    ∀ (st : ServiceState) (apiNet : String → HttpResponse)
      (refreshNet : String → NetResult HttpResponse),
      (∀ token, getToken st = some token → token ≠ "" →
        ((apiNet token).status ≠ 401 →
          authenticatedFetch st apiNet refreshNet =
            .ok (apiNet token, st, [.apiRequest token]))
        ∧ (∀ newTok st1 rtr, (apiNet token).status = 401 →
            refreshAccessToken st refreshNet = (some newTok, st1, rtr) →
            authenticatedFetch st apiNet refreshNet =
              .ok (apiNet newTok, st1, .apiRequest token :: rtr ++ [.apiRequest newTok]))
        ∧ (∀ st1 rtr, (apiNet token).status = 401 →
            refreshAccessToken st refreshNet = (none, st1, rtr) →
            authenticatedFetch st apiNet refreshNet =
              .ok (apiNet token, st1, .apiRequest token :: rtr)))
    ∧ (getToken st = none →
        authenticatedFetch st apiNet refreshNet = .error ⟨"No OAuth token found"⟩)
    ∧ (getToken st = some "" →
        authenticatedFetch st apiNet refreshNet = .error ⟨"No OAuth token found"⟩)
    ∧ (getRefreshToken st = none → refreshAccessToken st refreshNet = (none, st, []))
    ∧ (getRefreshToken st = some "" → refreshAccessToken st refreshNet = (none, st, []))
    ∧ (∀ rt, getRefreshToken st = some rt → rt ≠ "" → refreshNet rt = .thrown →
        refreshAccessToken st refreshNet = (none, st, [.refreshRequest rt]))
    ∧ (∀ rt resp, getRefreshToken st = some rt → rt ≠ "" → refreshNet rt = .ok resp →
        resp.ok = false →
        refreshAccessToken st refreshNet = (none, st, [.refreshRequest rt]))
    ∧ (∀ rt resp, getRefreshToken st = some rt → rt ≠ "" → refreshNet rt = .ok resp →
        resp.body.tokenAccessToken = none →
        refreshAccessToken st refreshNet = (none, st, [.refreshRequest rt]))
    ∧ (∀ resp st1 tr, authenticatedFetch st apiNet refreshNet = .ok (resp, st1, tr) →
        tr.countP FetchEvent.isApi ≤ 2 ∧ tr.countP FetchEvent.isRefresh ≤ 1) := by
  intro st apiNet refreshNet
  refine ⟨fun token htok htne => ⟨?_, ?_, ?_⟩, ?_, ?_, ?_, ?_, ?_, ?_, ?_, ?_⟩
  · intro h401
    simp [authenticatedFetch, htok, htne, h401]
  · intro newTok st1 rtr h401 href
    simp [authenticatedFetch, htok, htne, h401, href]
  · intro st1 rtr h401 href
    simp [authenticatedFetch, htok, htne, h401, href]
  · intro h
    simp [authenticatedFetch, h]
  · intro h
    simp [authenticatedFetch, h]
  · intro h
    simp [refreshAccessToken, h]
  · intro h
    simp [refreshAccessToken, h]
  · intro rt hg hrt hn
    simp [refreshAccessToken, hg, hrt, hn]
  · intro rt resp hg hrt hn hok
    simp [refreshAccessToken, hg, hrt, hn, hok]
  · intro rt resp hg hrt hn hta
    by_cases hok : resp.ok <;> simp [refreshAccessToken, hg, hrt, hn, hok, hta]
  · intro resp st1 tr h
    cases hg : getToken st with
    | none => simp [authenticatedFetch, hg] at h
    | some token =>
      simp only [authenticatedFetch, hg] at h
      by_cases htok0 : token = ""
      · rw [if_pos htok0] at h
        simp at h
      · rw [if_neg htok0] at h
        have hshape := refreshAccessToken_trace st refreshNet
        by_cases h401 : (apiNet token).status = 401
        · rw [if_pos h401] at h
          rcases hre : refreshAccessToken st refreshNet with ⟨o, st2, rtr⟩
          rw [hre] at h hshape
          have hrtr : rtr.countP FetchEvent.isApi = 0 ∧ rtr.countP FetchEvent.isRefresh ≤ 1 := by
            rcases hshape with he | ⟨rt, he⟩ <;> simp_all [FetchEvent.isApi, FetchEvent.isRefresh]
          cases o with
          | some newTok =>
            simp only [Except.ok.injEq, Prod.mk.injEq] at h
            rw [← h.2.2]
            simp [List.countP_cons, List.countP_append, FetchEvent.isApi,
              FetchEvent.isRefresh, hrtr.1]
            omega
          | none =>
            simp only [Except.ok.injEq, Prod.mk.injEq] at h
            rw [← h.2.2]
            simp [List.countP_cons, FetchEvent.isApi, FetchEvent.isRefresh, hrtr.1]
            omega
        · rw [if_neg h401] at h
          simp only [Except.ok.injEq, Prod.mk.injEq] at h
          rw [← h.2.2]
          simp [List.countP_cons, FetchEvent.isApi, FetchEvent.isRefresh]

/-- C1 witness: a concrete run through case (ii): first response 401, refresh
succeeds with "tokB", the request is re-sent once with the new token. -/
theorem C1_witness :
    authenticatedFetch ⟨some (.enc "tokA"), some (.enc "tokR")⟩ c1ApiNet c1RefreshNet =
      .ok (c1ApiNet "tokB",
        saveToken ⟨some (.enc "tokA"), some (.enc "tokR")⟩ "tokB" (some "tokR2"),
        .apiRequest "tokA" :: [.refreshRequest "tokR"] ++ [.apiRequest "tokB"]) := by
  have h := (C1_authenticatedFetch_retry_once ⟨some (.enc "tokA"), some (.enc "tokR")⟩
    c1ApiNet c1RefreshNet).1 "tokA" rfl (by decide)
  exact h.2.1 "tokB" _ _ (by decide) rfl

/-- C5: the token store round-trips: after `saveToken`, `getToken` returns
exactly the saved access token; the token file holds exactly
`encryptString accessToken` (a `CipherText`, never the plaintext string -
the file's type admits only encrypted bytes); a truthy refresh token is
stored encrypted as well; and decryption inverts encryption. -/
theorem C5_token_roundtrip :
    ∀ (st : ServiceState) (accessToken : String) (refreshToken : Option String),
      getToken (saveToken st accessToken refreshToken) = some accessToken
    ∧ (saveToken st accessToken refreshToken).tokenFile = some (encryptString accessToken)
    ∧ (∀ r, refreshToken = some r → r ≠ "" →
        (saveToken st accessToken refreshToken).refreshTokenFile = some (encryptString r))
    ∧ (∀ s, decryptString (encryptString s) = some s) := by
  intro st accessToken refreshToken
  refine ⟨?_, ?_, ?_, fun s => rfl⟩
  · cases refreshToken with
    | none => rfl
    | some r =>
      by_cases h : r = "" <;> simp [saveToken, getToken, encryptString, decryptString, h]
  · cases refreshToken with
    | none => rfl
    | some r => by_cases h : r = "" <;> simp [saveToken, h]
  · intro r hr hne
    subst hr
    simp [saveToken, hne]

/-- C5 witness at a concrete save. -/
theorem C5_witness :
    getToken (saveToken ⟨none, none⟩ "tokA" (some "tokR")) = some "tokA"
  ∧ (saveToken ⟨none, none⟩ "tokA" (some "tokR")).refreshTokenFile
      = some (encryptString "tokR") := by
  have h := C5_token_roundtrip ⟨none, none⟩ "tokA" (some "tokR")
  exact ⟨h.1, h.2.2.1 "tokR" rfl (by decide)⟩

/-- C6: `logout` deletes both local token files no matter what the revoke
request does (its outcome cannot influence the result at all), so `hasToken`
is false afterwards; and the revoke request is sent exactly when a truthy
local access token exists (`if (token)`: a missing or empty-string token
skips revocation). -/
theorem C6_logout_best_effort :
    ∀ (st : ServiceState) (revokeNet : String → NetResult Unit),
      hasToken (logout st revokeNet).1 = false
    ∧ (logout st revokeNet).1.tokenFile = none
    ∧ (logout st revokeNet).1.refreshTokenFile = none
    ∧ (getToken st = none → (logout st revokeNet).2 = [])
    ∧ (getToken st = some "" → (logout st revokeNet).2 = [])
    ∧ (∀ t, getToken st = some t → t ≠ "" → (logout st revokeNet).2 = [t])
    ∧ (∀ revokeNet2 : String → NetResult Unit, logout st revokeNet = logout st revokeNet2) := by
  intro st revokeNet
  refine ⟨rfl, rfl, rfl, ?_, ?_, ?_, ?_⟩
  · intro h
    simp [logout, h]
  · intro h
    simp [logout, h]
  · intro t ht htne
    cases hn : revokeNet t <;> simp [logout, ht, htne, hn]
  · intro revokeNet2
    cases hg : getToken st with
    | none => simp [logout, hg]
    | some t =>
      by_cases ht0 : t = ""
      · simp [logout, hg, ht0]
      · cases hn : revokeNet t <;> cases hn2 : revokeNet2 t <;> simp [logout, hg, ht0, hn, hn2]

/-- C6 witness: a stored token and a throwing revoke endpoint. -/
theorem C6_witness :
    hasToken (logout ⟨some (.enc "tokA"), some (.enc "tokR")⟩ (fun _ => .thrown)).1 = false
  ∧ (logout ⟨some (.enc "tokA"), some (.enc "tokR")⟩ (fun _ => .thrown)).2 = ["tokA"] := by
  have h := C6_logout_best_effort ⟨some (.enc "tokA"), some (.enc "tokR")⟩ (fun _ => .thrown)
  exact ⟨h.1, h.2.2.2.2.2.1 "tokA" rfl (by decide)⟩

/-- C7: without a stored token (`getToken` is null) each of `getBalance`,
`getUsage` and `getUserInfo` fails with a `CherryINOAuthServiceError` and an
empty network trace (no request is issued); and `getToken` itself is null -
rather than an exception - when the token file is absent or fails to
decrypt. -/
theorem C7_requires_token :
    ∀ (st : ServiceState) (apiNet : String → HttpResponse)
      (refreshNet : String → NetResult HttpResponse),
      (getToken st = none →
          getBalance st apiNet refreshNet = (.error ⟨"Failed to get balance"⟩, [])
        ∧ getUsage st apiNet refreshNet = (.error ⟨"Failed to get usage"⟩, [])
        ∧ getUserInfo st apiNet refreshNet = (.error ⟨"Failed to get user info"⟩, []))
    ∧ (∀ rf, getToken ⟨none, rf⟩ = none)
    ∧ (∀ rf, getToken ⟨some .corrupt, rf⟩ = none) := by
  intro st apiNet refreshNet
  refine ⟨?_, fun rf => rfl, fun rf => rfl⟩
  intro h
  refine ⟨?_, ?_, ?_⟩
  · simp [getBalance, authenticatedFetch, h]
  · simp [getUsage, authenticatedFetch, h]
  · simp [getUserInfo, authenticatedFetch, h]

/-- C7 witness at the empty store. -/
theorem C7_witness :
    getBalance ⟨none, none⟩ (fun _ => ⟨200, .malformed⟩) (fun _ => .thrown)
      = (.error ⟨"Failed to get balance"⟩, [])
  ∧ getToken ⟨some .corrupt, none⟩ = none := by
  have h := C7_requires_token ⟨none, none⟩ (fun _ => ⟨200, .malformed⟩) (fun _ => .thrown)
  exact ⟨(h.1 rfl).1, (h.2.2) none⟩

/-! ## Claim C2 -/

/-- C2: every `oauthWithCherryIn` invocation satisfies RFC 7636 S256: the
code verifier is exactly 64 characters (inside the RFC's 43-128 bound) drawn
only from the unreserved charset; the authorization URL carries
`code_challenge = base64UrlEncode (SHA-256 digest of the verifier)` and
`code_challenge_method = S256`; `base64UrlEncode` agrees with the
padding-free RFC 4648 base64url encoding (`base64UrlSpec`), in particular
its output uses only the base64url alphabet (no `=`, `+` or `/`). -/
theorem C2_pkce_s256 :
    ∀ (sha256 : String → List Nat) (randV randS : Nat → Nat) (now : Nat)
      (config : NewApiOAuthConfig) (pending : FlowMap),
      ((oauthWithCherryInStart sha256 randV randS now config pending).codeVerifier.length = 64
        ∧ 43 ≤ (oauthWithCherryInStart sha256 randV randS now config pending).codeVerifier.length
        ∧ (oauthWithCherryInStart sha256 randV randS now config pending).codeVerifier.length ≤ 128)
    ∧ (∀ c ∈ (oauthWithCherryInStart sha256 randV randS now config pending).codeVerifier.data,
        c ∈ pkceCharset)
    ∧ ("code_challenge",
        base64UrlEncode (sha256
          (oauthWithCherryInStart sha256 randV randS now config pending).codeVerifier))
        ∈ (oauthWithCherryInStart sha256 randV randS now config pending).authParams
    ∧ ("code_challenge_method", "S256")
        ∈ (oauthWithCherryInStart sha256 randV randS now config pending).authParams
    ∧ (∀ bytes : List Nat, base64UrlEncode bytes = ⟨base64UrlSpec bytes⟩)
    ∧ (∀ bytes : List Nat, ∀ c ∈ (base64UrlEncode bytes).data, c ∈ base64UrlChars) := by
  intro sha256 randV randS now config pending
  refine ⟨?_, ?_, ?_, ?_, ?_, ?_⟩
  · have hv : (oauthWithCherryInStart sha256 randV randS now config pending).codeVerifier
        = generateRandomString 64 randV := rfl
    rw [hv, generateRandomString_length]
    omega
  · exact generateRandomString_subset 64 randV
  · simp [oauthWithCherryInStart, generateCodeChallenge]
  · simp [oauthWithCherryInStart]
  · intro bytes
    show (⟨stripTrailingEq ((btoa bytes).map urlSafeChar)⟩ : String) = ⟨base64UrlSpec bytes⟩
    rw [strip_map_btoa]
  · intro bytes c hc
    have hd : (base64UrlEncode bytes).data = base64UrlSpec bytes := by
      show stripTrailingEq ((btoa bytes).map urlSafeChar) = base64UrlSpec bytes
      exact strip_map_btoa bytes
    rw [hd] at hc
    exact base64UrlSpec_subset bytes c hc

/-- C2 witness at concrete parameters. -/
theorem C2_witness :
    (oauthWithCherryInStart c2Sha c2Rand c2Rand 0 c2Cfg []).codeVerifier.length = 64
  ∧ 'B' ∈ pkceCharset
  ∧ ("code_challenge_method", "S256")
      ∈ (oauthWithCherryInStart c2Sha c2Rand c2Rand 0 c2Cfg []).authParams
  ∧ base64UrlEncode [1, 2, 3] = ⟨base64UrlSpec [1, 2, 3]⟩
  ∧ 'A' ∈ base64UrlChars := by
  have h := C2_pkce_s256 c2Sha c2Rand c2Rand 0 c2Cfg []
  refine ⟨h.1.1, ?_, h.2.2.2.1, h.2.2.2.2.1 [1, 2, 3], ?_⟩
  · exact h.2.1 'B' (by decide)
  · exact h.2.2.2.2.2 [0] 'A' (by decide)

/-! ## Claim C3 -/

/-- C3: the pending-flow map lifecycle: (1) `cleanupExpiredFlows` keeps only
entries at most 10 minutes old; (2) each `oauthWithCherryIn` start registers
its own entry stamped with the current time, and every other surviving entry
is within the 10-minute horizon (expired ones were deleted first); (3) a
callback run that resolves or rejects the promise (completion or error)
always leaves the map without this flow's entry; (4) the timeout `cleanup`
removes the entry as well. -/
theorem C3_pending_flow_lifecycle :
    (∀ (now : Nat) (m : FlowMap) (e : String × FlowData),
      e ∈ cleanupExpiredFlows now m → now - e.2.timestamp ≤ 10 * 60 * 1000)
  ∧ (∀ (sha256 : String → List Nat) (randV randS : Nat → Nat) (now : Nat)
      (config : NewApiOAuthConfig) (pending : FlowMap),
      (∃ fd, mapGet (oauthWithCherryInStart sha256 randV randS now config pending).flows
          (oauthWithCherryInStart sha256 randV randS now config pending).state = some fd
        ∧ fd.timestamp = now)
      ∧ (∀ e : String × FlowData,
          e ∈ (oauthWithCherryInStart sha256 randV randS now config pending).flows →
          e.1 = (oauthWithCherryInStart sha256 randV randS now config pending).state
          ∨ now - e.2.timestamp ≤ 10 * 60 * 1000))
  ∧ (∀ (myState : String) (flows : FlowMap) (cb : CallbackUrl) (env : CallbackEnv),
      (handleCallback myState flows cb env).outcome ≠ .ignored →
      mapHas (handleCallback myState flows cb env).flows myState = false)
  ∧ (∀ (flows : FlowMap) (state : String), mapHas (cleanupFlow flows state) state = false) := by
  refine ⟨?_, ?_, ?_, ?_⟩
  · exact fun now m e h => mem_cleanupExpiredFlows now m e h
  · intro sha256 randV randS now config pending
    have hflows : (oauthWithCherryInStart sha256 randV randS now config pending).flows
        = mapSet (cleanupExpiredFlows now pending) (generateRandomString 32 randS)
            ⟨generateRandomString 64 randV, config.oauthServer,
             config.clientId.getD DEFUALT_CHERRYIN_CLIENT_ID,
             config.apiHost.getD config.oauthServer,
             config.redirectUri.getD DEFAULT_REDIRECT_URI,
             config.scopes.getD DEFAULT_CHERRYIN_SCOPES, now⟩ := rfl
    have hstate : (oauthWithCherryInStart sha256 randV randS now config pending).state
        = generateRandomString 32 randS := rfl
    rw [hflows, hstate]
    constructor
    · exact ⟨_, mapGet_mapSet_self _ _ _, rfl⟩
    · intro e he
      rcases List.mem_append.mp he with h1 | h1
      · exact Or.inr (mem_cleanupExpiredFlows now pending e (mem_mapDelete _ _ _ h1))
      · left
        rw [List.mem_singleton.mp h1]
  · exact handleCallback_terminal_deletes
  · exact fun flows state => mapHas_mapDelete_self flows state

/-- C3 witness: a concrete terminal callback run and a concrete cleanup
sweep. -/
theorem C3_witness :
    mapHas (handleCallback "s" [("s", ⟨"v", "o", "c", "a", "r", "sc", 0⟩)]
      ⟨"oauth", "/callback", some "c", some "s", none, none⟩
      ⟨.thrown, .thrown⟩).flows "s" = false
  ∧ 5 - 3 ≤ 10 * 60 * 1000 := by
  constructor
  · exact C3_pending_flow_lifecycle.2.2.1 "s" _ _ _ (by decide)
  · exact C3_pending_flow_lifecycle.1 5 [("k", ⟨"v", "o", "c", "a", "r", "sc", 3⟩)]
      ("k", ⟨"v", "o", "c", "a", "r", "sc", 3⟩) (by decide)

/-! ## Claim C4 -/

/-- C4 counterexample: the claim says that for EVERY protocol callback whose
state is missing, unknown or foreign the handler returns without resolving
or rejecting this invocation's promise.  But the `error` and missing-`code`
checks run BEFORE state validation: a callback carrying
`error=access_denied` and the state of a DIFFERENT flow (here "other", while
this invocation's state is "mystate") rejects this invocation's promise. -/
theorem C4_counterexample :
    (some "other" : Option String) ≠ some "mystate"
  ∧ (handleCallback "mystate"
      [("mystate", ⟨"v", "o", "c", "a", "r", "sc", 0⟩),
       ("other", ⟨"w", "o", "c", "a", "r", "sc", 0⟩)]
      ⟨"oauth", "/callback", none, some "other", some "access_denied", none⟩
      ⟨.thrown, .thrown⟩).outcome = .rejected := by decide

/-- C4 (amended): provided the callback carries an authorization code and no
error parameter, a state that is missing (or empty), not a key of the
pending-flow map, or different from this invocation's own state makes the
handler return with no token exchange, no resolution or rejection, and the
map unchanged. -/
theorem C4_dedup_amended :
    ∀ (myState : String) (flows : FlowMap) (cb : CallbackUrl) (env : CallbackEnv),
      truthy cb.error = false → truthy cb.code = true →
      (cb.state = none
        ∨ ∃ s, cb.state = some s ∧ (s = "" ∨ mapHas flows s = false ∨ s ≠ myState)) →
      (handleCallback myState flows cb env).outcome = .ignored
      ∧ (handleCallback myState flows cb env).exchangedToken = false
      ∧ (handleCallback myState flows cb env).flows = flows := by
  intro myState flows cb env herr hcode hstate
  by_cases hhost : cb.hostname ≠ "oauth" ∨ cb.pathname ≠ "/callback"
  · simp [handleCallback, hhost]
  · rcases hstate with hnone | ⟨s, hs, hcase⟩
    · simp [handleCallback, hhost, herr, hcode, hnone]
    · rcases hcase with he | hh | hne
      · simp [handleCallback, hhost, herr, hcode, hs, he]
      · by_cases he : s = ""
        · simp [handleCallback, hhost, herr, hcode, hs, he]
        · simp [handleCallback, hhost, herr, hcode, hs, he, hh]
      · by_cases he : s = ""
        · simp [handleCallback, hhost, herr, hcode, hs, he]
        · by_cases hh : mapHas flows s = false
          · simp [handleCallback, hhost, herr, hcode, hs, he, hh]
          · have hh2 : mapHas flows s = true := by
              revert hh; cases mapHas flows s <;> simp
            simp [handleCallback, hhost, herr, hcode, hs, he, hh2, hne]

/-- C4 (amended) witness: a code-bearing callback with a foreign state is
ignored. -/
theorem C4_witness :
    (handleCallback "mystate" [("mystate", ⟨"v", "o", "c", "a", "r", "sc", 0⟩)]
      ⟨"oauth", "/callback", some "c", some "other", none, none⟩
      ⟨.thrown, .thrown⟩).outcome = .ignored := by
  exact (C4_dedup_amended "mystate" _ _ _ (by decide) (by decide)
    (Or.inr ⟨"other", rfl, Or.inr (Or.inl (by decide))⟩)).1

/-! ## Claims C8, C9, C10 -/

/-- C8: region visibility: CN sees every app; Global sees exactly the apps
whose `supportedRegions` is present, non-empty and contains `Global` (an app
without the field is hidden from Global users); `filterByRegion` keeps
exactly the visible apps, in their original order (sublist). -/
theorem C8_region_visibility :
    (∀ app : MinAppType, isVisibleForRegion app .CN = true)
  ∧ (∀ app : MinAppType, isVisibleForRegion app .Global = true ↔
      ∃ regions, app.supportedRegions = some regions ∧ regions ≠ []
        ∧ SupportedRegion.Global ∈ regions)
  ∧ (∀ app : MinAppType, app.supportedRegions = none →
      isVisibleForRegion app .Global = false)
  ∧ (∀ (apps : List MinAppType) (region : SupportedRegion),
      (filterByRegion apps region).Sublist apps
      ∧ (∀ a : MinAppType, a ∈ filterByRegion apps region
          ↔ a ∈ apps ∧ isVisibleForRegion a region = true)) := by
  refine ⟨fun app => rfl, ?_, ?_, ?_⟩
  · intro app
    unfold isVisibleForRegion
    cases h : app.supportedRegions with
    | none => simp
    | some regions =>
      cases regions with
      | nil => simp
      | cons r rs => simp [List.elem_iff]
  · intro app h
    unfold isVisibleForRegion
    rw [h]
    rfl
  · intro apps region
    exact ⟨List.filter_sublist apps, fun a => List.mem_filter⟩

/-- C8 witness: concrete apps on both sides of the Global rule. -/
theorem C8_witness :
    isVisibleForRegion ⟨"a", some [.Global]⟩ .Global = true
  ∧ isVisibleForRegion ⟨"b", none⟩ .Global = false
  ∧ (⟨"a", some [.Global]⟩ : MinAppType)
      ∈ filterByRegion [⟨"a", some [.Global]⟩, ⟨"b", none⟩] .Global := by
  refine ⟨?_, ?_, ?_⟩
  · exact (C8_region_visibility.2.1 ⟨"a", some [.Global]⟩).mpr
      ⟨[.Global], rfl, by decide, by decide⟩
  · exact C8_region_visibility.2.2.1 ⟨"b", none⟩ rfl
  · exact ((C8_region_visibility.2.2.2 [⟨"a", some [.Global]⟩, ⟨"b", none⟩] .Global).2
      ⟨"a", some [.Global]⟩).mpr ⟨by decide, by decide⟩

/-- C9 counterexample: the claim quantifies over every stored app that is
hidden for the effective region, but the write path computes hiddenness via
`getHiddenApps allMinApps`: an app with id "x" and no `supportedRegions`
(hence hidden for Global by `isVisibleForRegion`) that does not occur in the
`allMinApps` template is dropped by all three write functions when absent
from the visible-apps argument, even though it is stored and not disabled. -/
theorem C9_counterexample :
    isVisibleForRegion ⟨"x", none⟩ .Global = false
  ∧ (⟨"x", none⟩ : MinAppType) ∈ ([⟨"x", none⟩] : List MinAppType)
  ∧ updateMinapps [] [⟨"x", none⟩] [] .Global [] = []
  ∧ updateDisabledMinapps [] [⟨"x", none⟩] .Global [] = []
  ∧ updatePinnedMinapps [] [⟨"x", none⟩] .Global [] = [] := by decide

/-- C9 (amended): for every stored app whose id is region-hidden according to
the `allMinApps` template (`getHiddenApps`) - and, for `updateMinapps`, not
disabled - the dispatched list still contains an app with that id, whether or
not the app occurs in the visible-apps argument. -/
theorem C9_preserve_hidden_amended :
    ∀ (allApps enabled disabled pinned visible : List MinAppType)
      (region : SupportedRegion) (a : MinAppType),
      (getHiddenApps allApps region).contains a.id = true →
      ((a ∈ enabled → (appIds disabled).contains a.id = false →
        ∃ b ∈ updateMinapps allApps enabled disabled region visible, b.id = a.id)
      ∧ (a ∈ disabled →
        ∃ b ∈ updateDisabledMinapps allApps disabled region visible, b.id = a.id)
      ∧ (a ∈ pinned →
        ∃ b ∈ updatePinnedMinapps allApps pinned region visible, b.id = a.id)) := by
  intro allApps enabled disabled pinned visible region a hhid
  refine ⟨?_, ?_, ?_⟩
  · intro henab hdis
    unfold updateMinapps
    by_cases hv : (appIds (visible.filter
        (fun x => ¬ (appIds disabled).contains x.id))).contains a.id
    · rw [List.elem_iff, appIds, List.mem_map] at hv
      obtain ⟨b, hb, hbid⟩ := hv
      exact ⟨b, List.mem_append_left _ (List.mem_append_left _ hb), hbid⟩
    · have hpres : a ∈ enabled.filter
          (fun x => (getHiddenApps allApps region).contains x.id
            ∧ ¬ (appIds disabled).contains x.id) := by
        rw [List.mem_filter]
        exact ⟨henab, decide_eq_true ⟨hhid, by rw [hdis]; exact Bool.false_ne_true⟩⟩
      have happ : a ∈ (enabled.filter
          (fun x => (getHiddenApps allApps region).contains x.id
            ∧ ¬ (appIds disabled).contains x.id)).filter
          (fun x => ¬ (appIds (visible.filter
            (fun y => ¬ (appIds disabled).contains y.id))).contains x.id) := by
        rw [List.mem_filter]
        exact ⟨hpres, decide_eq_true hv⟩
      exact ⟨a, List.mem_append_left _ (List.mem_append_right _ happ), rfl⟩
  · intro hd
    unfold updateDisabledMinapps
    by_cases hv : (appIds visible).contains a.id
    · rw [List.elem_iff, appIds, List.mem_map] at hv
      obtain ⟨b, hb, hbid⟩ := hv
      exact ⟨b, List.mem_append_left _ hb, hbid⟩
    · have hpres : a ∈ disabled.filter
          (fun x => (getHiddenApps allApps region).contains x.id) := by
        rw [List.mem_filter]
        exact ⟨hd, hhid⟩
      have happ : a ∈ (disabled.filter
          (fun x => (getHiddenApps allApps region).contains x.id)).filter
          (fun x => ¬ (appIds visible).contains x.id) := by
        rw [List.mem_filter]
        exact ⟨hpres, decide_eq_true hv⟩
      exact ⟨a, List.mem_append_right _ happ, rfl⟩
  · intro hp
    unfold updatePinnedMinapps
    by_cases hv : (appIds visible).contains a.id
    · rw [List.elem_iff, appIds, List.mem_map] at hv
      obtain ⟨b, hb, hbid⟩ := hv
      exact ⟨b, List.mem_append_left _ hb, hbid⟩
    · have hpres : a ∈ pinned.filter
          (fun x => (getHiddenApps allApps region).contains x.id) := by
        rw [List.mem_filter]
        exact ⟨hp, hhid⟩
      have happ : a ∈ (pinned.filter
          (fun x => (getHiddenApps allApps region).contains x.id)).filter
          (fun x => ¬ (appIds visible).contains x.id) := by
        rw [List.mem_filter]
        exact ⟨hpres, decide_eq_true hv⟩
      exact ⟨a, List.mem_append_right _ happ, rfl⟩

/-- C9 (amended) witness: a template-hidden stored app with id "x" survives
the write functions when absent from the visible list. -/
theorem C9_witness :
    (∃ b ∈ updateMinapps [⟨"x", none⟩] [⟨"x", none⟩] [] .Global [], b.id = "x")
  ∧ (∃ b ∈ updateDisabledMinapps [⟨"x", none⟩] [⟨"x", none⟩] .Global [], b.id = "x") := by
  have h1 := C9_preserve_hidden_amended [⟨"x", none⟩] [⟨"x", none⟩] [] [] [] .Global
    ⟨"x", none⟩ (by decide)
  have h2 := C9_preserve_hidden_amended [⟨"x", none⟩] [] [⟨"x", none⟩] [] [] .Global
    ⟨"x", none⟩ (by decide)
  exact ⟨h1.1 (by decide) (by decide), h2.2.1 (by decide)⟩

/-- C10: the usage percentage: `computeUsedPercent` divides only under the
`total > 0` guard (it equals the round-formula exactly when
`quota + used_quota > 0` and `0` otherwise), and for any non-negative quota
and used quota the result lies in `[0, 100]`; and a successful `getUsage`
returns exactly `computeUsedPercent quota used_quota` together with the
request count. -/
theorem C10_used_percent_bounded :
    (∀ quota usedQuota : ℚ,
      (0 < quota + usedQuota →
        computeUsedPercent quota usedQuota
          = ((round (usedQuota / (quota + usedQuota) * 10000) : ℤ) : ℚ) / 100)
      ∧ (¬ 0 < quota + usedQuota → computeUsedPercent quota usedQuota = 0)
      ∧ (0 ≤ quota → 0 ≤ usedQuota →
          0 ≤ computeUsedPercent quota usedQuota
          ∧ computeUsedPercent quota usedQuota ≤ 100))
  ∧ (∀ (st : ServiceState) (apiNet : String → HttpResponse)
      (refreshNet : String → NetResult HttpResponse)
      (resp : HttpResponse) (st1 : ServiceState) (tr : List FetchEvent)
      (rc uq q : ℚ),
      authenticatedFetch st apiNet refreshNet = .ok (resp, st1, tr) →
      resp.ok = true → resp.body = .usage true rc uq q →
      getUsage st apiNet refreshNet = (.ok ⟨rc, computeUsedPercent q uq⟩, tr)) := by
  constructor
  · intro quota usedQuota
    refine ⟨fun ht => by simp [computeUsedPercent, if_pos ht], fun ht => by
      simp [computeUsedPercent, if_neg ht], ?_⟩
    intro hq hu
    unfold computeUsedPercent
    by_cases ht : 0 < quota + usedQuota
    · rw [if_pos ht]
      have hx1 : usedQuota / (quota + usedQuota) ≤ 1 := by
        rw [div_le_one ht]; linarith
      have hx0 : 0 ≤ usedQuota / (quota + usedQuota) := div_nonneg hu (le_of_lt ht)
      have hy0 : (0 : ℚ) ≤ usedQuota / (quota + usedQuota) * 10000 := by positivity
      have hy1 : usedQuota / (quota + usedQuota) * 10000 ≤ 10000 := by nlinarith
      have hr0 : (0 : ℤ) ≤ round (usedQuota / (quota + usedQuota) * 10000) := by
        rw [round_eq]
        refine Int.le_floor.mpr ?_
        push_cast
        linarith
      have hr1 : round (usedQuota / (quota + usedQuota) * 10000) ≤ 10000 := by
        rw [round_eq]
        have hfl := Int.floor_le (usedQuota / (quota + usedQuota) * 10000 + 1 / 2)
        by_contra hcon
        push_neg at hcon
        have hge : ((10001 : ℤ) : ℚ)
            ≤ ((⌊usedQuota / (quota + usedQuota) * 10000 + 1 / 2⌋ : ℤ) : ℚ) := by
          exact_mod_cast hcon
        push_cast at hge
        linarith
      constructor
      · positivity
      · rw [div_le_iff₀ (by norm_num : (0 : ℚ) < 100)]
        have : ((round (usedQuota / (quota + usedQuota) * 10000) : ℤ) : ℚ) ≤ 10000 := by
          exact_mod_cast hr1
        linarith
    · rw [if_neg ht]
      norm_num
  · intro st apiNet refreshNet resp st1 tr rc uq q hfetch hok hbody
    unfold getUsage
    rw [hfetch]
    simp [hok, hbody]

/-- C10 witness: a concrete successful usage fetch with quota 1 and used
quota 3, giving 75 percent. -/
theorem C10_witness :
    computeUsedPercent 1 3 = ((round ((3 : ℚ) / (1 + 3) * 10000) : ℤ) : ℚ) / 100
  ∧ 0 ≤ computeUsedPercent 1 3 ∧ computeUsedPercent 1 3 ≤ 100
  ∧ getUsage c10State c10ApiNet c10RefreshNet
      = (.ok ⟨7, computeUsedPercent 1 3⟩, [.apiRequest "tokA"]) := by
  have h := C10_used_percent_bounded.1 1 3
  have hb := h.2.2 (by norm_num) (by norm_num)
  refine ⟨h.1 (by norm_num), hb.1, hb.2, ?_⟩
  exact C10_used_percent_bounded.2 c10State c10ApiNet c10RefreshNet
    ⟨200, .usage true 7 3 1⟩ c10State [.apiRequest "tokA"] 7 3 1 rfl rfl rfl


